import Mathlib

/-!
# Verification of the viam-ai-updater patch pipeline

Shallow embedding of the core of `ai_updater/ai_updater.py` and
`ai_updater/ai_updater_tools.py`:

* Python string primitives `str.count` / `str.replace` (left-to-right,
  non-overlapping) on `List Char`;
* the `apply_patch` validation tool (ai_updater_tools.py, lines 27-131);
* the tool-calling patch loop of `AIUpdater.generate_patch`
  (ai_updater.py, lines 185-272), with the language model abstracted as an
  oracle from attempt numbers to model turns;
* the per-file dispatch of `AIUpdater.apply_changes` (lines 298-339);
* the prompt construction of `AIUpdater.generate_file` (lines 274-280);
* the empty-diff short-circuit of `AIUpdater.run` (lines 362-364).

File contents are `List Char`; the filesystem read in `apply_patch` is
modelled by an `Option (List Char)` argument (`none` = the file cannot be
read).  Theorems about the frozen claims follow the definitions.
-/

namespace AIUpdater

/-! ## Python string primitives

CPython's `str.count(sub)` and `str.replace(old, new)` scan the string left
to right; at each position, if `sub` matches they count/replace it and jump
past it, otherwise they advance one character.  The scan consumes at least
one character per step, so the length of the haystack bounds the number of
steps; the `fuel` argument makes that bound explicit and the top-level
wrappers always pass a sufficient fuel (`hay.length`). -/

/-- One scanning pass of `str.count`: `fuel` bounds the number of steps. -/
def countFuel (pat : List Char) : Nat → List Char → Nat
  | _, [] => 0
  | 0, _ :: _ => 0
  | f + 1, c :: rest =>
    if pat.isPrefixOf (c :: rest) then
      1 + countFuel pat f (List.drop (pat.length - 1) rest)
    else
      countFuel pat f rest

/-- Python `hay.count(pat)`.  For the empty pattern Python returns
`len(hay) + 1`; otherwise occurrences are counted left to right without
overlap. -/
def pyCount (hay pat : List Char) : Nat :=
  if pat.isEmpty then hay.length + 1 else countFuel pat hay.length hay

/-- One scanning pass of `str.replace`: `fuel` bounds the number of steps. -/
def replaceFuel (pat repl : List Char) : Nat → List Char → List Char
  | _, [] => []
  | 0, l => l
  | f + 1, c :: rest =>
    if pat.isPrefixOf (c :: rest) then
      repl ++ replaceFuel pat repl f (List.drop (pat.length - 1) rest)
    else
      c :: replaceFuel pat repl f rest

/-- Python `hay.replace(pat, repl)`.  For the empty pattern Python inserts
`repl` before every character and after the last one; otherwise every
non-overlapping occurrence, found left to right, is replaced. -/
def pyReplace (hay pat repl : List Char) : List Char :=
  if pat.isEmpty then repl ++ hay.flatMap (fun c => c :: repl)
  else replaceFuel pat repl hay.length hay

/-! ## Sequential patch application

`AIUpdater.generate_patch` commits a successful batch by
`for search, replace in zip(final_search_text, final_replacement_text):
patched_content = patched_content.replace(search, replace)`
(ai_updater.py, lines 264-268): each pair is applied to the result of the
previous one. -/

/-- A `(search_text, replacement_text)` pair. -/
abbrev Patch := List Char × List Char

/-- The committed substitution of `generate_patch` (lines 264-268): fold the
pairs over the content in list order. -/
def applyPatches (content : List Char) (ps : List Patch) : List Char :=
  ps.foldl (fun c p => pyReplace c p.1 p.2) content

/-- Intermediate content after the first `k` pairs have been applied. -/
def applyFirstK (content : List Char) (ps : List Patch) (k : Nat) : List Char :=
  applyPatches content (ps.take k)

/-- The `i`-th pair of a patch list (the empty pair out of range). -/
def patchAt (ps : List Patch) (i : Nat) : Patch :=
  ps.getD i ([], [])

/-- Net length change of a patch list: sum over the pairs of
(replacement length - search length). -/
def lengthDelta (ps : List Patch) : Int :=
  (ps.map (fun p => (p.2.length : Int) - (p.1.length : Int))).sum

/-- Formalisation of the spec's side condition "no two `search_text` values
overlap destructively", for a content and a patch list applied in order:
(1) every search text is nonempty and still occurs exactly once at the moment
its pair is applied (no earlier replacement destroyed or duplicated it), and
(2) applying a later pair never removes an already-present replacement text
from the content. -/
def nonDestructive (content : List Char) (ps : List Patch) : Prop :=
  (∀ i, i < ps.length →
    (patchAt ps i).1 ≠ [] ∧ pyCount (applyFirstK content ps i) (patchAt ps i).1 = 1) ∧
  (∀ i, i < ps.length → ∀ j, j < ps.length → i < j →
    (patchAt ps i).2 <:+: applyFirstK content ps j →
    (patchAt ps i).2 <:+: applyFirstK content ps (j + 1))

/-! ## The `apply_patch` validation tool (ai_updater_tools.py, lines 27-131)

`apply_patch(file_path, search_text, replacement_text, attempt_number)`
returns a status dict.  It only ever *reads* the file: on success nothing is
written — the substitution is performed later by the caller.  The dict keys
`success`, `error`, `message` and `stop_trying` become the fields below
(`stop_trying` is absent except in the max-attempts return, where it is
`True`; absence is modelled as `false`, matching
`tool_result.get('stop_trying', False)` at the call site). -/

/-- The dict returned by `apply_patch`. -/
structure PatchResult where
  success : Bool
  error : Option String
  message : Option String
  stopTrying : Bool
deriving Repr, DecidableEq

/-- `MAX_ATTEMPTS` (ai_updater_tools.py, line 44). -/
def MAX_ATTEMPTS : Nat := 5

/-- The `STOP_TRYING` message (line 45). -/
def maxAttemptsMessage : String :=
  "STOP_TRYING: Maximum attempts (" ++ toString MAX_ATTEMPTS ++ ") exceeded. " ++
  "The AI should stop trying to apply patches to this file and respond with " ++
  "TASK ABORTED: PATCHING FAILED."

/-- `max_attempts_return` (lines 46-50): the only return with `stop_trying`. -/
def max_attempts_return : PatchResult :=
  { success := false, error := some maxAttemptsMessage, message := none, stopTrying := true }

/-- An ordinary (retryable) failure dict `{"success": False, "error": e}`. -/
def failResult (e : String) : PatchResult :=
  { success := false, error := some e, message := none, stopTrying := false }

def mismatchedLengthsMessage (ns nr : Nat) : String :=
  "ERROR: Mismatched list lengths - " ++ toString ns ++ " search blocks but " ++
  toString nr ++ " replacement blocks"

def fileNotExistMessage (path : String) : String :=
  "ERROR: File " ++ path ++ " does not exist"

def emptySearchMessage (idx : Nat) : String :=
  "ERROR: Patch " ++ toString idx ++ ": Search text is empty"

def notFoundMessage (idx : Nat) : String :=
  "ERROR: Patch " ++ toString idx ++ ": Search text not found in file. " ++
  "The AI needs to generate a search block that exists in the file exactly as written."

def multipleMessage (idx count : Nat) : String :=
  "ERROR: Patch " ++ toString idx ++ ": Search text appears " ++ toString count ++
  " times in file. The AI must include more surrounding context to make the search " ++
  "block unique."

def successMessage : String := "SUCCESS: All patches validated successfully!"

/-- The validation loop of `apply_patch` (lines 88-131): for each
`(search, replace)` pair of `zip(search_text, replacement_text)`, in order,
reject an empty search text, then count the occurrences of the search text in
the (unchanged) file content and reject counts of zero or more than one;
inside every rejection branch, `attempt_number > MAX_ATTEMPTS` yields
`max_attempts_return` instead of the detailed error.  `i` carries the Python
enumeration index. -/
def validateLoop (content : List Char) (attemptNumber : Nat) :
    List Patch → Nat → PatchResult
  | [], _ =>
    { success := true, error := none, message := some successMessage, stopTrying := false }
  | (search, _) :: rest, i =>
    if search = [] then
      if attemptNumber > MAX_ATTEMPTS then max_attempts_return
      else failResult (emptySearchMessage (i + 1))
    else
      let searchCount := pyCount content search
      if searchCount = 0 then
        if attemptNumber > MAX_ATTEMPTS then max_attempts_return
        else failResult (notFoundMessage (i + 1))
      else if searchCount > 1 then
        if attemptNumber > MAX_ATTEMPTS then max_attempts_return
        else failResult (multipleMessage (i + 1) searchCount)
      else validateLoop content attemptNumber rest (i + 1)

/-- `apply_patch` (ai_updater_tools.py, lines 27-131).  `fileContent` is the
outcome of reading `file_path`: `none` when the file does not exist (the
unreadable-file branch at lines 74-87 is modelled the same way, as both
prevent the content from being obtained).  Checks happen in source order:
list lengths first, then file readability, then the per-pair validation
loop. -/
def apply_patch (filePath : String) (fileContent : Option (List Char))
    (search_text replacement_text : List (List Char)) (attemptNumber : Nat) : PatchResult :=
  if search_text.length ≠ replacement_text.length then
    if attemptNumber > MAX_ATTEMPTS then max_attempts_return
    else failResult (mismatchedLengthsMessage search_text.length replacement_text.length)
  else
    match fileContent with
    | none =>
      if attemptNumber > MAX_ATTEMPTS then max_attempts_return
      else failResult (fileNotExistMessage filePath)
    | some content => validateLoop content attemptNumber (search_text.zip replacement_text) 0

/-- `apply_patch` together with the filesystem state it leaves behind: the
source opens `file_path` in read mode only (line 75) and never writes, so the
content after the call is the content before. -/
def apply_patch_run (filePath : String) (fileContent : Option (List Char))
    (search_text replacement_text : List (List Char)) (attemptNumber : Nat) :
    PatchResult × Option (List Char) :=
  (apply_patch filePath fileContent search_text replacement_text attemptNumber, fileContent)

/-- The validation condition `apply_patch` enforces, as a boolean: equal list
lengths, readable file, and every search text nonempty and occurring exactly
once in the file content. -/
def validOk (fileContent : Option (List Char)) (search_text replacement_text : List (List Char)) : Bool :=
  (search_text.length == replacement_text.length) &&
  (match fileContent with
   | none => false
   | some content => search_text.all fun s => (!s.isEmpty) && (pyCount content s == 1))

/-! ## The patch loop of `AIUpdater.generate_patch` (ai_updater.py, lines 185-272)

The loop repeatedly asks the model for a turn, runs `apply_patch` on a
proposed tool call, and continues while `not patch_success and not
stop_trying`.  The language model is abstracted as an oracle from the attempt
number to the turn it produces (the conversation history that the source
accumulates in `contents` feeds the model but never influences the loop's
own control flow, so it is folded into the oracle).  The source loop has no
syntactic bound, so the embedding carries a step budget `fuel`;
`patchLoop_terminates` proves that any `fuel ≥ MAX_ATTEMPTS + 1` is enough,
because every branch exits once the attempt number exceeds the cap. -/

/-- One model turn, as classified by `generate_patch` (lines 228-262):
an `apply_patch` function call with its arguments, a call to some other
function name, content whose parts carry no function call, or a response
without candidates/content. -/
inductive ModelTurn where
  | toolCall (search_text replacement_text : List (List Char))
  | wrongCall (name : String)
  | noFunctionCall
  | noCandidates
deriving Repr, DecidableEq

/-- A turn is malformed when it is anything but an `apply_patch` call. -/
def ModelTurn.malformed : ModelTurn → Bool
  | .toolCall _ _ => false
  | _ => true

/-- State of `generate_patch` when its while-loop exits: the final
`attempt_count`, `patch_success`, and the `final_search_text` /
`final_replacement_text` lists (set only on success, lines 241-243). -/
structure LoopExit where
  attemptCount : Nat
  patchSuccess : Bool
  finalSearch : List (List Char)
  finalRepl : List (List Char)
deriving Repr, DecidableEq

/-- The `while not patch_success and not stop_trying` loop (lines 208-262).
Each iteration increments `attempt_count`, makes one model call, and either
runs `apply_patch` on the proposed call or — on a malformed turn — sets
`patch_success = False, stop_trying = True` and exits.  `none` means the
step budget ran out before the loop exited. -/
def patchLoop (oracle : Nat → ModelTurn) (filePath : String)
    (fileContent : Option (List Char)) : Nat → Nat → Option LoopExit
  | 0, _ => none
  | fuel + 1, attemptCount =>
    match oracle (attemptCount + 1) with
    | .toolCall st rt =>
      let res := apply_patch filePath fileContent st rt (attemptCount + 1)
      if res.success then some ⟨attemptCount + 1, true, st, rt⟩
      else if res.stopTrying then some ⟨attemptCount + 1, false, [], []⟩
      else patchLoop oracle filePath fileContent fuel (attemptCount + 1)
    | _ => some ⟨attemptCount + 1, false, [], []⟩

/-- What `generate_patch` produces for its file: either the patched content
written to `ai_file_path` (lines 264-269), or one fallback whole-file
generation via `generate_file(..., fallback=True)` (lines 270-272).  Both
write exactly one output file.  `modelCalls` is the number of loop
iterations, i.e. patch-model calls, that were made. -/
inductive GenPatchOutcome where
  | patched (written : List Char) (modelCalls : Nat)
  | fellBack (modelCalls : Nat)
deriving Repr, DecidableEq

/-- `AIUpdater.generate_patch` (lines 185-272): run the tool-calling loop on
the file's current content; on success commit the final pairs by sequential
substitution, otherwise fall back to whole-file generation. -/
def generate_patch (oracle : Nat → ModelTurn) (filePath : String)
    (existingContent : List Char) (fuel : Nat) : Option GenPatchOutcome :=
  match patchLoop oracle filePath (some existingContent) fuel 0 with
  | none => none
  | some ex =>
    if ex.patchSuccess then
      some (.patched (applyPatches existingContent (ex.finalSearch.zip ex.finalRepl))
        ex.attemptCount)
    else
      some (.fellBack ex.attemptCount)

/-! ## Per-file dispatch of `AIUpdater.apply_changes` (ai_updater.py, lines 298-339) -/

/-- The strategy chosen for one file: `requires_creation=True` routes to
`generate_file` (line 336), otherwise to `generate_patch` (line 338). -/
inductive FileAction where
  | create
  | patch
deriving Repr, DecidableEq

/-- The Python exception text raised by an out-of-range list subscript. -/
def indexErrorMessage : String := "IndexError: list index out of range"

/-- The `ValueError` message of apply_changes, line 316. -/
def lengthMismatchErrorMessage : String :=
  "ERROR: AI OUTPUT A DIFFERENT NUMBER OF FILENAMES THAN IMPLEMENTATION DETAILS"

/-- The `for i in range(len(files_to_update))` loop of `apply_changes`
(lines 321-338), modelled on the three parallel lists.  Python reads
`files_to_update[i]`, `implementation_details[i]` and `requires_creation[i]`
in that order; a missing index raises `IndexError`, which aborts the loop
(files already processed stay processed).  The first component collects the
files processed with the strategy chosen for each; the second is the
uncaught error, if any. -/
def processFiles : List String → List String → List Bool →
    List (String × FileAction) × Option String
  | [], _, _ => ([], none)
  | _ :: _, [], _ => ([], some indexErrorMessage)
  | _ :: _, _ :: _, [] => ([], some indexErrorMessage)
  | f :: fs, _ :: ds, c :: cs =>
    let step := processFiles fs ds cs
    ((f, if c then FileAction.create else FileAction.patch) :: step.1, step.2)

/-- `AIUpdater.apply_changes` (lines 298-339): raise `ValueError` when the
file list and the instruction list differ in length (line 315), return with
no work when there is nothing to update (line 317), else process each file
in order. -/
def apply_changes (files_to_update implementation_details : List String)
    (requires_creation : List Bool) : List (String × FileAction) × Option String :=
  if files_to_update.length ≠ implementation_details.length then
    ([], some lengthMismatchErrorMessage)
  else if files_to_update.length = 0 then ([], none)
  else processFiles files_to_update implementation_details requires_creation

/-! ## Prompt construction of `AIUpdater.generate_file` (ai_updater.py, lines 274-280) -/

/-- The text of the `GENERATECOMPLETEFILE_P` template of
prompts/applychanges_prompts.py before the `{implementation_detail}`
placeholder. -/
def GENERATECOMPLETEFILE_P_head : String :=
  "\nYou need to implement the following changes for a single file:\n"

/-- The template text between the `{implementation_detail}` and
`{existing_file_content}` placeholders. -/
def GENERATECOMPLETEFILE_P_mid : String :=
  "\n\nI will now provide you with the complete current contents of the existing file " ++
  "that you need to modify. If this is a new file, no content will be provided,\n" ++
  "and you will generate it from scratch. Your output should be the full, regenerated " ++
  "content after applying\nONLY the necessary edits, strictly adhering to the " ++
  "implementation details provided.\n\n"

/-- The template text after the `{existing_file_content}` placeholder. -/
def GENERATECOMPLETEFILE_P_tail : String :=
  "\n\nTask: Regenerate the complete file contents, incorporating only the necessary " ++
  "edits as described in the implementation details provided.\n\nCRITICAL INSTRUCTIONS:\n" ++
  "1.  **Strict Adherence to Implementation Details**: Your primary guide for making " ++
  "changes is the `implementation_details`. Implement *only* what is explicitly " ++
  "requested there.\n" ++
  "2.  **Preserve Original Code (for existing files)**: If you are provided with " ++
  "existing file content, DO NOT modify any of that existing code unless it is " ++
  "directly specified in the `implementation_details`. The existing code provided " ++
  "to you must be reproduced exactly, including all comments, blank lines, and " ++
  "existing formatting. **For new files, generate the entire content from scratch.**\n" ++
  "3.  **Absolute Formatting Preservation**: When generating the new file contents, " ++
  "you MUST preserve all original formatting, including newlines, indentation, and " ++
  "whitespace, exactly as it appears in the provided existing file. DO NOT reformat " ++
  "any part of the code that is not explicitly altered by the new implementation. " ++
  "Your output must be valid, correctly formatted code.\n\n" ++
  "Provide the newly generated, complete file contents. The file contents should be " ++
  "raw code, not wrapped in markdown or any other formatting beyond standard syntax.\n"

/-- The `GENERATECOMPLETEFILE_P` template with its two placeholders spliced
in (`str.format`). -/
def GENERATECOMPLETEFILE_P (implementation_detail existing_file_content : String) : String :=
  GENERATECOMPLETEFILE_P_head ++ implementation_detail ++ GENERATECOMPLETEFILE_P_mid ++
  existing_file_content ++ GENERATECOMPLETEFILE_P_tail

/-- The marker text naming a nonexistent file (line 279). -/
def doesNotExistMarker : String :=
  "This file does not exist. Please generate the entire file content from scratch."

/-- The message `generate_file` substitutes for the content of a file that
does not exist yet (line 279). -/
def doesNotExistMessage (file_path : String) : String :=
  "=== " ++ file_path ++ " ===\n" ++ doesNotExistMarker

/-- The prompt built by `generate_file` (lines 274-280): in fallback mode the
existing content is supplied under a file-path header; otherwise the
does-not-exist marker replaces any content and the existing content is never
read. -/
def generate_file_prompt (file_path implementation_detail existing_file_content : String)
    (fallback : Bool) : String :=
  if fallback then
    GENERATECOMPLETEFILE_P implementation_detail
      ("===" ++ file_path ++ "===\n" ++ existing_file_content)
  else
    GENERATECOMPLETEFILE_P implementation_detail (doesNotExistMessage file_path)

/-! ## The empty-diff short-circuit of `AIUpdater.run` (ai_updater.py, lines 341-379) -/

/-- Which stages of one run executed and how many output files were
generated. -/
structure PipelineTrace where
  ranContextSelection : Bool
  ranDiffAnalysis : Bool
  ranApplyChanges : Bool
  wroteDebugDiffFile : Bool
  generatedOutputs : Nat
deriving Repr, DecidableEq

/-- The trace of a run that stopped before doing anything. -/
def emptyRunTrace : PipelineTrace :=
  { ranContextSelection := false, ranDiffAnalysis := false, ranApplyChanges := false,
    wroteDebugDiffFile := false, generatedOutputs := 0 }

/-- `AIUpdater.run` after the diff text has been obtained: the
`if git_diff_output == "": return` check (lines 362-364) precedes the debug
write of the diff, `get_relevant_context`, `get_diff_analysis` and
`apply_changes`, all abstracted into the continuation `rest`. -/
def run (git_diff_output : List Char) (rest : List Char → PipelineTrace) : PipelineTrace :=
  if git_diff_output = [] then emptyRunTrace else rest git_diff_output

/-! ### Fuel adequacy and step equations -/

theorem countFuel_fuel_irrel (pat : List Char) :
    ∀ f g hay, hay.length ≤ f → hay.length ≤ g →
      countFuel pat f hay = countFuel pat g hay := by
  intro f
  induction f with
  | zero =>
    intro g hay hf _
    cases hay with
    | nil => cases g <;> rfl
    | cons c rest => simp at hf
  | succ f ih =>
    intro g hay hf hg
    cases hay with
    | nil => cases g <;> rfl
    | cons c rest =>
      cases g with
      | zero => simp at hg
      | succ g =>
        simp only [countFuel]
        by_cases hp : pat.isPrefixOf (c :: rest)
        · simp only [hp, if_true]
          have hd : (List.drop (pat.length - 1) rest).length ≤ rest.length := by
            rw [List.length_drop]; omega
          have h1 : (List.drop (pat.length - 1) rest).length ≤ f := by
            simp at hf; omega
          have h2 : (List.drop (pat.length - 1) rest).length ≤ g := by
            simp at hg; omega
          rw [ih g _ h1 h2]
        · simp only [hp, if_false]
          have h1 : rest.length ≤ f := by simp at hf; omega
          have h2 : rest.length ≤ g := by simp at hg; omega
          exact ih g rest h1 h2

theorem replaceFuel_fuel_irrel (pat repl : List Char) :
    ∀ f g hay, hay.length ≤ f → hay.length ≤ g →
      replaceFuel pat repl f hay = replaceFuel pat repl g hay := by
  intro f
  induction f with
  | zero =>
    intro g hay hf _
    cases hay with
    | nil => cases g <;> rfl
    | cons c rest => simp at hf
  | succ f ih =>
    intro g hay hf hg
    cases hay with
    | nil => cases g <;> rfl
    | cons c rest =>
      cases g with
      | zero => simp at hg
      | succ g =>
        simp only [replaceFuel]
        by_cases hp : pat.isPrefixOf (c :: rest)
        · simp only [hp, if_true]
          have h1 : (List.drop (pat.length - 1) rest).length ≤ f := by
            rw [List.length_drop]; simp at hf; omega
          have h2 : (List.drop (pat.length - 1) rest).length ≤ g := by
            rw [List.length_drop]; simp at hg; omega
          rw [ih g _ h1 h2]
        · simp only [hp, if_false]
          have h1 : rest.length ≤ f := by simp at hf; omega
          have h2 : rest.length ≤ g := by simp at hg; omega
          rw [ih g rest h1 h2]
          simp [hp]

theorem pyCount_nil (pat : List Char) (hpat : pat ≠ []) : pyCount [] pat = 0 := by
  simp [pyCount, List.isEmpty_iff, hpat, countFuel]

theorem pyCount_cons (pat : List Char) (hpat : pat ≠ []) (c : Char) (rest : List Char) :
    pyCount (c :: rest) pat =
      if pat.isPrefixOf (c :: rest) then
        1 + pyCount (List.drop (pat.length - 1) rest) pat
      else
        pyCount rest pat := by
  have hd : (List.drop (pat.length - 1) rest).length ≤ rest.length := by
    rw [List.length_drop]; omega
  simp only [pyCount, List.isEmpty_iff, hpat, if_false, List.length_cons, countFuel]
  by_cases hp : pat.isPrefixOf (c :: rest)
  · simp only [hp, if_true]
    rw [countFuel_fuel_irrel pat rest.length (List.drop (pat.length - 1) rest).length _ hd le_rfl]
  · simp [hp]

theorem pyReplace_nil (pat repl : List Char) : pyReplace [] pat repl = if pat.isEmpty then repl else [] := by
  cases pat <;> simp [pyReplace, replaceFuel]

theorem pyReplace_cons (pat repl : List Char) (hpat : pat ≠ []) (c : Char) (rest : List Char) :
    pyReplace (c :: rest) pat repl =
      if pat.isPrefixOf (c :: rest) then
        repl ++ pyReplace (List.drop (pat.length - 1) rest) pat repl
      else
        c :: pyReplace rest pat repl := by
  have hd : (List.drop (pat.length - 1) rest).length ≤ rest.length := by
    rw [List.length_drop]; omega
  simp only [pyReplace, List.isEmpty_iff, hpat, if_false, List.length_cons, replaceFuel]
  by_cases hp : pat.isPrefixOf (c :: rest)
  · simp only [hp, if_true]
    rw [replaceFuel_fuel_irrel pat repl rest.length (List.drop (pat.length - 1) rest).length _ hd le_rfl]
  · simp [hp]

/-! ### Length and presence properties of `pyReplace` -/

/-- Replacing every occurrence changes the length by the occurrence count
times the length difference between replacement and pattern. -/
theorem pyReplace_length (pat repl : List Char) (hpat : pat ≠ []) (hay : List Char) :
    (pyReplace hay pat repl).length + pyCount hay pat * pat.length
      = hay.length + pyCount hay pat * repl.length := by
  have key : ∀ n (hay : List Char), hay.length ≤ n →
      (pyReplace hay pat repl).length + pyCount hay pat * pat.length
        = hay.length + pyCount hay pat * repl.length := by
    intro n
    induction n with
    | zero =>
      intro hay h
      have hnil : hay = [] := List.length_eq_zero.mp (Nat.le_zero.mp h)
      subst hnil
      simp [pyReplace_nil, pyCount_nil pat hpat, List.isEmpty_iff, hpat]
    | succ n ih =>
      intro hay h
      cases hay with
      | nil => simp [pyReplace_nil, pyCount_nil pat hpat, List.isEmpty_iff, hpat]
      | cons c rest =>
        rw [pyCount_cons pat hpat, pyReplace_cons pat repl hpat]
        by_cases hp : pat.isPrefixOf (c :: rest)
        · simp only [hp, if_true]
          have hple : pat.length ≤ rest.length + 1 := by
            have := (List.isPrefixOf_iff_prefix.mp hp).length_le
            simpa using this
          have hdl : (List.drop (pat.length - 1) rest).length = rest.length - (pat.length - 1) :=
            List.length_drop _ _
          have hrec := ih (List.drop (pat.length - 1) rest) (by rw [hdl]; simp at h; omega)
          have hp1 : 1 ≤ pat.length := by
            cases pat with
            | nil => exact absurd rfl hpat
            | cons a l => simp
          simp only [List.length_append, List.length_cons, Nat.add_mul, Nat.one_mul]
          set cnt := pyCount (List.drop (pat.length - 1) rest) pat with hcnt
          set A := cnt * pat.length with hA
          set B := cnt * repl.length with hB
          omega
        · simp only [hp, Bool.false_eq_true, if_false, List.length_cons]
          have hrec := ih rest (by simp at h; omega)
          omega
  exact key hay.length hay le_rfl

/-- If the pattern occurs at least once, the replacement text is a
contiguous part of the replaced string. -/
theorem pyReplace_repl_present (pat repl : List Char) (hpat : pat ≠ []) (hay : List Char)
    (hcnt : 1 ≤ pyCount hay pat) : repl <:+: pyReplace hay pat repl := by
  have key : ∀ n (hay : List Char), hay.length ≤ n → 1 ≤ pyCount hay pat →
      repl <:+: pyReplace hay pat repl := by
    intro n
    induction n with
    | zero =>
      intro hay h hc
      have hnil : hay = [] := List.length_eq_zero.mp (Nat.le_zero.mp h)
      subst hnil
      rw [pyCount_nil pat hpat] at hc
      omega
    | succ n ih =>
      intro hay h hc
      cases hay with
      | nil =>
        rw [pyCount_nil pat hpat] at hc
        omega
      | cons c rest =>
        rw [pyCount_cons pat hpat] at hc
        rw [pyReplace_cons pat repl hpat]
        by_cases hp : pat.isPrefixOf (c :: rest)
        · simp only [hp, if_true]
          exact ⟨[], pyReplace (List.drop (pat.length - 1) rest) pat repl, by simp⟩
        · simp only [hp, Bool.false_eq_true, if_false] at hc ⊢
          have hrec := ih rest (by simp at h; omega) hc
          exact List.infix_cons hrec
  exact key hay.length hay le_rfl hcnt

theorem applyFirstK_zero (content : List Char) (ps : List Patch) :
    applyFirstK content ps 0 = content := rfl

theorem patchAt_eq_getElem (ps : List Patch) (i : Nat) (h : i < ps.length) :
    patchAt ps i = ps[i] := by
  exact List.getD_eq_getElem ps ([], []) h

theorem applyFirstK_succ (content : List Char) (ps : List Patch) (k : Nat)
    (h : k < ps.length) :
    applyFirstK content ps (k + 1)
      = pyReplace (applyFirstK content ps k) (patchAt ps k).1 (patchAt ps k).2 := by
  simp only [applyFirstK, applyPatches, List.take_succ, List.getElem?_eq_getElem h,
    Option.toList_some, List.foldl_append, List.foldl_cons, List.foldl_nil,
    patchAt_eq_getElem ps k h]

theorem applyFirstK_of_le (content : List Char) (ps : List Patch) (k : Nat)
    (h : ps.length ≤ k) : applyFirstK content ps k = applyPatches content ps := by
  simp [applyFirstK, List.take_of_length_le h]

theorem lengthDelta_take_succ (ps : List Patch) (k : Nat) (h : k < ps.length) :
    lengthDelta (ps.take (k + 1))
      = lengthDelta (ps.take k)
        + (((patchAt ps k).2.length : Int) - ((patchAt ps k).1.length : Int)) := by
  rw [List.take_succ, List.getElem?_eq_getElem h, patchAt_eq_getElem ps k h]
  simp only [lengthDelta, Option.toList_some, List.map_append, List.sum_append,
    List.map_cons, List.map_nil, List.sum_cons, List.sum_nil, add_zero]

theorem applyFirstK_infix_climb (content : List Char) (ps : List Patch) (r : List Char) :
    ∀ m k, ps.length ≤ k + m →
      (∀ j, k ≤ j → j < ps.length → r <:+: applyFirstK content ps j →
        r <:+: applyFirstK content ps (j + 1)) →
      r <:+: applyFirstK content ps k → r <:+: applyPatches content ps := by
  intro m
  induction m with
  | zero =>
    intro k hk _ hbase
    rw [applyFirstK_of_le content ps k (by omega)] at hbase
    exact hbase
  | succ m ih =>
    intro k hk hstep hbase
    by_cases hlt : k < ps.length
    · exact ih (k + 1) (by omega) (fun j hj1 hj2 => hstep j (by omega) hj2)
        (hstep k le_rfl hlt hbase)
    · rw [applyFirstK_of_le content ps k (by omega)] at hbase
      exact hbase

theorem applyFirstK_length (content : List Char) (ps : List Patch)
    (hnd : ∀ i, i < ps.length →
      (patchAt ps i).1 ≠ [] ∧ pyCount (applyFirstK content ps i) (patchAt ps i).1 = 1) :
    ∀ k, k ≤ ps.length →
      ((applyFirstK content ps k).length : Int)
        = (content.length : Int) + lengthDelta (ps.take k) := by
  intro k
  induction k with
  | zero => simp [applyFirstK_zero, lengthDelta]
  | succ k ih =>
    intro h
    have hk : k < ps.length := by omega
    obtain ⟨hne, honce⟩ := hnd k hk
    have hstep := pyReplace_length (patchAt ps k).1 (patchAt ps k).2 hne
      (applyFirstK content ps k)
    rw [honce, Nat.one_mul, Nat.one_mul] at hstep
    have ihk := ih (by omega)
    rw [applyFirstK_succ content ps k hk, lengthDelta_take_succ ps k hk]
    omega

/-- **C2.** For every file content `C` and every patch list in which each
`search_text` occurs exactly once in `C` and no two `search_text` values
overlap destructively (`nonDestructive`), applying the pairs sequentially in
list order — each replacement applied to the result of the previous one, as
`generate_patch` does in ai_updater.py lines 264-268 — yields a result in
which every `replacement_text` is present, and whose total length equals the
length of `C` plus the sum over all pairs of (length of `replacement_text`
minus length of `search_text`). -/
theorem sequential_application_sound (content : List Char) (ps : List Patch)
    (honce : ∀ i, i < ps.length → pyCount content (patchAt ps i).1 = 1)
    (hnd : nonDestructive content ps) :
    (∀ i, i < ps.length → (patchAt ps i).2 <:+: applyPatches content ps) ∧
    ((applyPatches content ps).length : Int) = (content.length : Int) + lengthDelta ps := by
  obtain ⟨hstep, hpres⟩ := hnd
  constructor
  · intro i hi
    have ⟨hne, hcnt⟩ := hstep i hi
    have hbase : (patchAt ps i).2 <:+: applyFirstK content ps (i + 1) := by
      rw [applyFirstK_succ content ps i hi]
      exact pyReplace_repl_present (patchAt ps i).1 (patchAt ps i).2 hne _ (by omega)
    exact applyFirstK_infix_climb content ps (patchAt ps i).2 ps.length (i + 1)
      (by omega) (fun j hj1 hj2 => hpres i hi j hj2 (by omega)) hbase
  · have hfull := applyFirstK_length content ps hstep ps.length le_rfl
    rw [applyFirstK_of_le content ps ps.length le_rfl, List.take_length] at hfull
    exact hfull

/-- Check of `sequential_application_sound` at a concrete input:
"ab" patched by [("a","xx"), ("b","y")] gives "xxy" of length 3 = 2 + (2-1) + (1-1),
with both replacement texts present. -/
theorem sequential_application_sound_witness :
    (∀ i, i < 2 →
      pyCount ['a', 'b'] (patchAt [(['a'], ['x', 'x']), (['b'], ['y'])] i).1 = 1) ∧
    ((∀ i, i < ([(['a'], ['x', 'x']), (['b'], ['y'])] : List Patch).length →
        (patchAt [(['a'], ['x', 'x']), (['b'], ['y'])] i).2 <:+:
          applyPatches ['a', 'b'] [(['a'], ['x', 'x']), (['b'], ['y'])]) ∧
      ((applyPatches ['a', 'b'] [(['a'], ['x', 'x']), (['b'], ['y'])]).length : Int)
        = (2 : Int) + lengthDelta [(['a'], ['x', 'x']), (['b'], ['y'])]) :=
  ⟨by decide,
   sequential_application_sound ['a', 'b'] [(['a'], ['x', 'x']), (['b'], ['y'])]
     (by decide) ⟨by decide, by decide⟩⟩

theorem validateLoop_success (content : List Char) (a : Nat) :
    ∀ l i, (validateLoop content a l i).success
      = l.all (fun p => (!p.1.isEmpty) && (pyCount content p.1 == 1)) := by
  intro l
  induction l with
  | nil => intro i; rfl
  | cons p rest ih =>
    intro i
    obtain ⟨search, repl⟩ := p
    rw [List.all_cons, validateLoop]
    by_cases hs : search = []
    · by_cases ha : a > MAX_ATTEMPTS <;>
        simp [hs, ha, max_attempts_return, failResult]
    · by_cases h0 : pyCount content search = 0
      · by_cases ha : a > MAX_ATTEMPTS <;>
          simp [hs, h0, ha, max_attempts_return, failResult, List.isEmpty_iff]
      · by_cases h1 : pyCount content search > 1
        · by_cases ha : a > MAX_ATTEMPTS <;>
            simp [hs, h0, h1, ha, max_attempts_return, failResult, List.isEmpty_iff,
              show pyCount content search ≠ 1 by omega]
        · have hone : pyCount content search = 1 := by omega
          simp [hs, h0, h1, hone, List.isEmpty_iff, ih (i + 1)]

theorem validateLoop_stop (content : List Char) (a : Nat) :
    ∀ l i, (validateLoop content a l i).stopTrying
      = ((!l.all (fun p => (!p.1.isEmpty) && (pyCount content p.1 == 1)))
          && decide (a > MAX_ATTEMPTS)) := by
  intro l
  induction l with
  | nil => intro i; rfl
  | cons p rest ih =>
    intro i
    obtain ⟨search, repl⟩ := p
    rw [List.all_cons, validateLoop]
    by_cases hs : search = []
    · by_cases ha : a > MAX_ATTEMPTS <;>
        simp [hs, ha, max_attempts_return, failResult]
    · by_cases h0 : pyCount content search = 0
      · by_cases ha : a > MAX_ATTEMPTS <;>
          simp [hs, h0, ha, max_attempts_return, failResult, List.isEmpty_iff]
      · by_cases h1 : pyCount content search > 1
        · by_cases ha : a > MAX_ATTEMPTS <;>
            simp [hs, h0, h1, ha, max_attempts_return, failResult, List.isEmpty_iff,
              show pyCount content search ≠ 1 by omega]
        · have hone : pyCount content search = 1 := by omega
          have hse : search.isEmpty = false := by
            cases search with
            | nil => exact absurd rfl hs
            | cons c cs => rfl
          simp [hs, h0, h1, hone, hse, ih (i + 1)]

theorem zip_all_fst (st rt : List (List Char)) (f : List Char → Bool)
    (h : st.length ≤ rt.length) :
    ((st.zip rt).all fun p => f p.1) = st.all f := by
  induction st generalizing rt with
  | nil => rfl
  | cons s ss ih =>
    cases rt with
    | nil => simp at h
    | cons r rs =>
      simp only [List.zip_cons_cons, List.all_cons]
      rw [ih rs (by simpa using h)]

/-- The success flag of `apply_patch` is exactly the validation condition —
for every attempt number. -/
theorem apply_patch_success_eq (filePath : String) (fileContent : Option (List Char))
    (st rt : List (List Char)) (a : Nat) :
    (apply_patch filePath fileContent st rt a).success = validOk fileContent st rt := by
  rw [apply_patch.eq_def, validOk.eq_def]
  by_cases hlen : st.length = rt.length
  · simp only [hlen, ne_eq, not_true_eq_false, if_false, beq_self_eq_true, Bool.true_and]
    match fileContent with
    | none =>
      by_cases ha : a > MAX_ATTEMPTS <;> simp [ha, max_attempts_return, failResult]
    | some content =>
      rw [validateLoop_success content a (st.zip rt) 0]
      exact zip_all_fst st rt (fun s => (!s.isEmpty) && (pyCount content s == 1))
        (le_of_eq hlen)
  · have hne : st.length ≠ rt.length := hlen
    by_cases ha : a > MAX_ATTEMPTS <;>
      simp [hne, ha, max_attempts_return, failResult, beq_eq_false_iff_ne]

/-- The `stop_trying` flag of `apply_patch` is set exactly when validation
fails *and* the attempt number exceeds the cap. -/
theorem apply_patch_stop_eq (filePath : String) (fileContent : Option (List Char))
    (st rt : List (List Char)) (a : Nat) :
    (apply_patch filePath fileContent st rt a).stopTrying
      = ((!validOk fileContent st rt) && decide (a > MAX_ATTEMPTS)) := by
  rw [apply_patch.eq_def, validOk.eq_def]
  by_cases hlen : st.length = rt.length
  · simp only [hlen, ne_eq, not_true_eq_false, if_false, beq_self_eq_true, Bool.true_and]
    match fileContent with
    | none =>
      by_cases ha : a > MAX_ATTEMPTS <;> simp [ha, max_attempts_return, failResult]
    | some content =>
      rw [validateLoop_stop content a (st.zip rt) 0,
        zip_all_fst st rt (fun s => (!s.isEmpty) && (pyCount content s == 1)) (le_of_eq hlen)]
  · have hne : st.length ≠ rt.length := hlen
    by_cases ha : a > MAX_ATTEMPTS <;>
      simp [hne, ha, max_attempts_return, failResult, beq_eq_false_iff_ne]

/-! ## Loop lemmas -/

theorem patchLoop_all_fail (oracle : Nat → ModelTurn) (filePath : String) (content : List Char)
    (hcalls : ∀ a, ∃ st rt, oracle a = ModelTurn.toolCall st rt ∧
      validOk (some content) st rt = false) :
    ∀ fuel attemptCount, attemptCount ≤ MAX_ATTEMPTS →
      MAX_ATTEMPTS + 1 - attemptCount ≤ fuel →
      patchLoop oracle filePath (some content) fuel attemptCount
        = some ⟨MAX_ATTEMPTS + 1, false, [], []⟩ := by
  intro fuel
  induction fuel with
  | zero =>
    intro ac h1 h2
    exfalso
    simp [MAX_ATTEMPTS] at h1 h2
    omega
  | succ fuel ih =>
    intro ac h1 h2
    obtain ⟨st, rt, hor, hvo⟩ := hcalls (ac + 1)
    rw [patchLoop, hor]
    have hsucc : (apply_patch filePath (some content) st rt (ac + 1)).success = false := by
      rw [apply_patch_success_eq, hvo]
    have hstop : (apply_patch filePath (some content) st rt (ac + 1)).stopTrying
        = decide (ac + 1 > MAX_ATTEMPTS) := by
      rw [apply_patch_stop_eq, hvo]
      simp
    by_cases hcap : ac = MAX_ATTEMPTS
    · subst hcap
      simp [hsucc, hstop]
    · have hlt : ac < MAX_ATTEMPTS := by omega
      have : decide (ac + 1 > MAX_ATTEMPTS) = false := by simp; omega
      rw [this] at hstop
      simp only [hsucc, hstop, Bool.false_eq_true, if_false]
      exact ih (ac + 1) (by omega) (by omega)

theorem patchLoop_malformed (oracle : Nat → ModelTurn) (filePath : String) (content : List Char)
    (k : Nat) (hk6 : k ≤ MAX_ATTEMPTS + 1)
    (hbefore : ∀ a, 1 ≤ a → a < k → ∃ st rt, oracle a = ModelTurn.toolCall st rt ∧
      validOk (some content) st rt = false)
    (hmal : (oracle k).malformed = true) :
    ∀ fuel attemptCount, attemptCount < k → k ≤ attemptCount + fuel →
      patchLoop oracle filePath (some content) fuel attemptCount
        = some ⟨k, false, [], []⟩ := by
  intro fuel
  induction fuel with
  | zero =>
    intro ac h1 h2
    omega
  | succ fuel ih =>
    intro ac h1 h2
    by_cases hk : ac + 1 = k
    · rw [patchLoop]
      cases hturn : oracle (ac + 1) with
      | toolCall st rt =>
        rw [← hk, hturn] at hmal
        simp [ModelTurn.malformed] at hmal
      | wrongCall nm => simp [hk]
      | noFunctionCall => simp [hk]
      | noCandidates => simp [hk]
    · have hlt : ac + 1 < k := by omega
      obtain ⟨st, rt, hor, hvo⟩ := hbefore (ac + 1) (by omega) hlt
      rw [patchLoop, hor]
      have hsucc : (apply_patch filePath (some content) st rt (ac + 1)).success = false := by
        rw [apply_patch_success_eq, hvo]
      have hstop : (apply_patch filePath (some content) st rt (ac + 1)).stopTrying = false := by
        rw [apply_patch_stop_eq, hvo]
        simp [MAX_ATTEMPTS] at hk6 ⊢
        omega
      simp only [hsucc, hstop, Bool.false_eq_true, if_false]
      exact ih (ac + 1) hlt (by omega)

theorem patchLoop_success_inv (oracle : Nat → ModelTurn) (filePath : String)
    (fileContent : Option (List Char)) :
    ∀ fuel attemptCount ex,
      patchLoop oracle filePath fileContent fuel attemptCount = some ex →
      ex.patchSuccess = true →
      oracle ex.attemptCount = ModelTurn.toolCall ex.finalSearch ex.finalRepl ∧
      (apply_patch filePath fileContent ex.finalSearch ex.finalRepl ex.attemptCount).success
        = true := by
  intro fuel
  induction fuel with
  | zero => intro ac ex h; simp [patchLoop] at h
  | succ fuel ih =>
    intro ac ex h hsucc
    rw [patchLoop] at h
    cases hturn : oracle (ac + 1) with
    | toolCall st rt =>
      rw [hturn] at h
      by_cases hs : (apply_patch filePath fileContent st rt (ac + 1)).success = true
      · simp only [hs, if_true] at h
        obtain rfl : ex = ⟨ac + 1, true, st, rt⟩ := (Option.some_inj.mp h).symm
        exact ⟨hturn, hs⟩
      · rw [Bool.not_eq_true] at hs
        simp only [hs, Bool.false_eq_true, if_false] at h
        by_cases hstp : (apply_patch filePath fileContent st rt (ac + 1)).stopTrying = true
        · simp only [hstp, if_true] at h
          obtain rfl : ex = ⟨ac + 1, false, [], []⟩ := (Option.some_inj.mp h).symm
          simp at hsucc
        · rw [Bool.not_eq_true] at hstp
          simp only [hstp, Bool.false_eq_true, if_false] at h
          exact ih (ac + 1) ex h hsucc
    | wrongCall nm =>
      rw [hturn] at h
      obtain rfl : ex = ⟨ac + 1, false, [], []⟩ := (Option.some_inj.mp h).symm
      simp at hsucc
    | noFunctionCall =>
      rw [hturn] at h
      obtain rfl : ex = ⟨ac + 1, false, [], []⟩ := (Option.some_inj.mp h).symm
      simp at hsucc
    | noCandidates =>
      rw [hturn] at h
      obtain rfl : ex = ⟨ac + 1, false, [], []⟩ := (Option.some_inj.mp h).symm
      simp at hsucc

/-! ## Claim theorems -/

/-- **C10.** The attempt cap escalates failures only: for every input on
which batch validation succeeds, `apply_patch` returns success regardless of
the attempt number (even when it exceeds the cap of 5), and the terminal
`stop_trying` signal is only ever returned together with a failure result,
never with a success. -/
theorem attempt_cap_escalates_failures_only (filePath : String)
    (fileContent : Option (List Char)) (st rt : List (List Char)) (a : Nat) :
    (validOk fileContent st rt = true →
      (apply_patch filePath fileContent st rt a).success = true ∧
      (apply_patch filePath fileContent st rt a).stopTrying = false) ∧
    ((apply_patch filePath fileContent st rt a).stopTrying = true →
      (apply_patch filePath fileContent st rt a).success = false) := by
  constructor
  · intro h
    rw [apply_patch_success_eq, apply_patch_stop_eq, h]
    simp
  · intro h
    rw [apply_patch_stop_eq] at h
    rw [apply_patch_success_eq]
    rcases Bool.and_eq_true_iff.mp h with ⟨hnv, _⟩
    simpa using hnv

/-- Check of `attempt_cap_escalates_failures_only` at attempt number 7 > 5:
a validating batch still succeeds there, and a stop signal comes with a
failure. -/
theorem attempt_cap_escalates_failures_only_witness :
    (apply_patch "f" (some ['a']) [['a']] [['b']] 7).success = true ∧
    (apply_patch "f" (some ['a']) [['z']] [['b']] 7).success = false :=
  ⟨((attempt_cap_escalates_failures_only "f" (some ['a']) [['a']] [['b']] 7).1 (by decide)).1,
   (attempt_cap_escalates_failures_only "f" (some ['a']) [['z']] [['b']] 7).2 (by decide)⟩

/-- **C9.** For unequal-length search/replacement lists, `apply_patch` fails
before any occurrence counting is attempted: the result does not depend on
the file content at all (so no search text is ever counted against it), and
below the attempt cap it is the fixed mismatched-lengths error — a hard
validation failure that no file content can turn into a success. -/
theorem mismatched_lengths_fail_before_counting (filePath : String)
    (fileContent fileContent' : Option (List Char)) (st rt : List (List Char)) (a : Nat)
    (h : st.length ≠ rt.length) :
    (apply_patch filePath fileContent st rt a).success = false ∧
    apply_patch filePath fileContent st rt a = apply_patch filePath fileContent' st rt a ∧
    (a ≤ MAX_ATTEMPTS →
      apply_patch filePath fileContent st rt a
        = failResult (mismatchedLengthsMessage st.length rt.length)) := by
  have he : ∀ fc : Option (List Char), apply_patch filePath fc st rt a
      = if a > MAX_ATTEMPTS then max_attempts_return
        else failResult (mismatchedLengthsMessage st.length rt.length) := by
    intro fc
    rw [apply_patch.eq_def]
    simp [h]
  refine ⟨?_, ?_, ?_⟩
  · rw [he]
    by_cases ha : a > MAX_ATTEMPTS <;> simp [ha, max_attempts_return, failResult]
  · rw [he, he]
  · intro ha
    rw [he]
    simp [Nat.not_lt.mpr ha]

/-- Check of `mismatched_lengths_fail_before_counting` on one search block
and no replacement blocks, with two different file contents. -/
theorem mismatched_lengths_fail_before_counting_witness :
    (apply_patch "f" (some ['x']) [['a']] [] 1).success = false ∧
    apply_patch "f" (some ['x']) [['a']] [] 1 = apply_patch "f" none [['a']] [] 1 :=
  ⟨(mismatched_lengths_fail_before_counting "f" (some ['x']) none [['a']] [] 1 (by decide)).1,
   (mismatched_lengths_fail_before_counting "f" (some ['x']) none [['a']] [] 1 (by decide)).2.1⟩

/-- **C1, counterexample.** The claim says a patch loop that fails
validation on 5 consecutive attempts terminates *without a 6th attempt*.  On
the code, a model that always proposes the failing pair ("x" → "y") against
content "a" fails validation on attempts 1-5, and the loop then makes a
*6th* model call and a 6th `apply_patch` invocation — only that one returns
the terminal stop signal, after which the single fallback happens.  The
outcome records 6 model calls, refuting "no 6th attempt". -/
theorem patch_cap_counterexample :
    validOk (some ['a']) [['x']] [['y']] = false ∧
    generate_patch (fun _ => ModelTurn.toolCall [['x']] [['y']]) "f" ['a'] 10
      = some (GenPatchOutcome.fellBack 6) ∧
    some (GenPatchOutcome.fellBack 6) ≠ some (GenPatchOutcome.fellBack 5) := by
  refine ⟨by decide, by decide, by decide⟩

/-- **C1, amended.** For every file path whose patch loop is driven by model
calls that fail validation on every attempt, the loop terminates after the
6th attempt: attempts 1-5 each return an ordinary validation failure, the
6th `apply_patch` call (attempt number 6 > cap 5) returns the terminal stop
signal, no 7th attempt is made (for any step budget), and exactly one
fallback whole-file generation is performed for that path, producing exactly
one written output file. -/
theorem patch_cap_six_attempts_one_fallback (oracle : Nat → ModelTurn) (filePath : String)
    (content : List Char) (fuel : Nat)
    (hcalls : ∀ a, ∃ st rt, oracle a = ModelTurn.toolCall st rt ∧
      validOk (some content) st rt = false)
    (hfuel : MAX_ATTEMPTS + 1 ≤ fuel) :
    generate_patch oracle filePath content fuel
      = some (GenPatchOutcome.fellBack (MAX_ATTEMPTS + 1)) := by
  rw [generate_patch,
    patchLoop_all_fail oracle filePath content hcalls fuel 0 (by omega) (by omega)]
  rfl

/-- Check of `patch_cap_six_attempts_one_fallback` on the constant failing
oracle with the minimal sufficient step budget. -/
theorem patch_cap_six_attempts_one_fallback_witness :
    generate_patch (fun _ => ModelTurn.toolCall [['q']] [['y']]) "g" ['a', 'b'] 6
      = some (GenPatchOutcome.fellBack 6) :=
  patch_cap_six_attempts_one_fallback (fun _ => ModelTurn.toolCall [['q']] [['y']]) "g"
    ['a', 'b'] 6 (fun _ => ⟨[['q']], [['y']], rfl, by decide⟩) (by decide)

/-- **C5.** For every patch-loop exchange in which the model's turn at some
attempt `k` is malformed (no function call, a call to a function other than
`apply_patch`, or no candidates/content) after ordinary validation failures
on the earlier attempts, the loop exits at attempt `k` — immediately, with
no further retry within that exchange — and fallback whole-file generation
is still invoked for the file, so exactly one output file is written. -/
theorem malformed_turn_aborts_to_fallback (oracle : Nat → ModelTurn) (filePath : String)
    (content : List Char) (fuel k : Nat)
    (hk1 : 1 ≤ k) (hk6 : k ≤ MAX_ATTEMPTS + 1) (hfuel : k ≤ fuel)
    (hbefore : ∀ a, 1 ≤ a → a < k → ∃ st rt, oracle a = ModelTurn.toolCall st rt ∧
      validOk (some content) st rt = false)
    (hmal : (oracle k).malformed = true) :
    generate_patch oracle filePath content fuel = some (GenPatchOutcome.fellBack k) := by
  rw [generate_patch,
    patchLoop_malformed oracle filePath content k hk6 hbefore hmal fuel 0 (by omega) (by omega)]
  rfl

/-- Check of `malformed_turn_aborts_to_fallback` on a first-turn model
response with no function call. -/
theorem malformed_turn_aborts_to_fallback_witness :
    generate_patch (fun _ => ModelTurn.noFunctionCall) "g" ['a'] 6
      = some (GenPatchOutcome.fellBack 1) :=
  malformed_turn_aborts_to_fallback (fun _ => ModelTurn.noFunctionCall) "g" ['a'] 6 1
    (by decide) (by decide) (by decide) (fun a h1 h2 => absurd (Nat.lt_of_lt_of_le h2 h1) (by omega))
    (by decide)

/-- **C4.** Validation evaluates the exactly-once occurrence rule for every
pair against the original, unmodified file content as one up-front batch:
if the pairs before index `i` pass and pair `i` violates the rule *on the
original content*, `apply_patch` fails no matter what the pairs after `i`
are — so a later pair can never repair an occurrence-count violation caused
by an earlier one.  Moreover the text substitution is performed only after
the whole batch validated: whenever `generate_patch` writes patched content,
that content is the sequential substitution of a batch whose `apply_patch`
validation (against the original content) succeeded. -/
theorem batch_validation_before_substitution (filePath : String) (content : List Char)
    (st rt : List (List Char)) (a i : Nat)
    (hlen : st.length = rt.length) (hi : i < st.length)
    (hbefore : ∀ j, j < i → st.getD j [] ≠ [] ∧ pyCount content (st.getD j []) = 1)
    (hbad : st.getD i [] = [] ∨ pyCount content (st.getD i []) ≠ 1) :
    (apply_patch filePath (some content) st rt a).success = false ∧
    (∀ oracle fuel w n,
      generate_patch oracle filePath content fuel = some (GenPatchOutcome.patched w n) →
      ∃ st' rt', oracle n = ModelTurn.toolCall st' rt' ∧
        (apply_patch filePath (some content) st' rt' n).success = true ∧
        w = applyPatches content (st'.zip rt')) := by
  constructor
  · rw [apply_patch_success_eq, validOk]
    have hmem : st.getD i [] ∈ st := by
      rw [List.getD_eq_getElem st [] hi]
      exact List.getElem_mem hi
    have hf : ((!(st.getD i []).isEmpty) && (pyCount content (st.getD i []) == 1)) = false := by
      rcases hbad with hemp | hcnt
      · rw [hemp]; simp
      · rw [beq_eq_false_iff_ne.mpr hcnt, Bool.and_false]
    have hall : st.all (fun s => (!s.isEmpty) && (pyCount content s == 1)) = false := by
      rw [List.all_eq_false]
      exact ⟨st.getD i [], hmem, by rw [hf]; exact Bool.false_ne_true⟩
    simp [hall]
  · intro oracle fuel w n h
    rw [generate_patch] at h
    cases hloop : patchLoop oracle filePath (some content) fuel 0 with
    | none => rw [hloop] at h; simp at h
    | some ex =>
      rw [hloop] at h
      by_cases hs : ex.patchSuccess = true
      · simp only [hs, if_true, Option.some_inj] at h
        obtain ⟨hor, hsucc⟩ :=
          patchLoop_success_inv oracle filePath (some content) fuel 0 ex hloop hs
        obtain ⟨hw, hn⟩ := GenPatchOutcome.patched.inj h
        subst hn
        exact ⟨ex.finalSearch, ex.finalRepl, hor, hsucc, hw.symm⟩
      · rw [Bool.not_eq_true] at hs
        simp only [hs, Bool.false_eq_true, if_false, Option.some_inj] at h
        exact absurd h (by simp)

/-- Check of `batch_validation_before_substitution`: "a" occurs twice in
"aa", so the batch fails on the original content whatever follows. -/
theorem batch_validation_before_substitution_witness :
    (apply_patch "f" (some ['a', 'a']) [['a'], ['b']] [['x'], ['y']] 1).success = false :=
  (batch_validation_before_substitution "f" ['a', 'a'] [['a'], ['b']] [['x'], ['y']] 1 0
    (by decide) (by decide) (fun j hj => absurd hj (by omega)) (by decide)).1

theorem zip_getD_fst (st rt : List (List Char)) (j : Nat) (hlen : st.length = rt.length)
    (hj : j < st.length) : ((st.zip rt).getD j ([], [])).1 = st.getD j [] := by
  have hjz : j < (st.zip rt).length := by rw [List.length_zip]; omega
  rw [List.getD_eq_getElem _ _ hjz, List.getD_eq_getElem _ _ hj, List.getElem_zip]

theorem validateLoop_first_fail (content : List Char) (a : Nat) (ha : a ≤ MAX_ATTEMPTS) :
    ∀ l : List Patch, ∀ i0 i : Nat, i < l.length →
      (∀ j, j < i → (l.getD j ([], [])).1 ≠ [] ∧ pyCount content (l.getD j ([], [])).1 = 1) →
      (l.getD i ([], [])).1 ≠ [] →
      (pyCount content (l.getD i ([], [])).1 = 0 →
        validateLoop content a l i0 = failResult (notFoundMessage (i0 + i + 1))) ∧
      (∀ n, 1 < n → pyCount content (l.getD i ([], [])).1 = n →
        validateLoop content a l i0 = failResult (multipleMessage (i0 + i + 1) n)) := by
  intro l
  induction l with
  | nil => intro i0 i hi; simp at hi
  | cons p rest ih =>
    intro i0 i hi hbefore hne
    cases i with
    | zero =>
      obtain ⟨search, repl⟩ := p
      simp only [List.getD_cons_zero] at hne ⊢
      have hna : ¬ a > MAX_ATTEMPTS := by omega
      constructor
      · intro h0
        rw [validateLoop]
        simp [hne, h0, hna]
      · intro n hn hcount
        have hn0 : ¬ n = 0 := by omega
        rw [validateLoop]
        simp [hne, hcount, hna, hn0, hn]
    | succ i =>
      obtain ⟨hpne, hponce⟩ := hbefore 0 (by omega)
      obtain ⟨search, repl⟩ := p
      simp only [List.getD_cons_zero] at hpne hponce
      simp only [List.getD_cons_succ] at hne ⊢
      have hi' : i < rest.length := by simpa using hi
      have hbefore' : ∀ j, j < i →
          (rest.getD j ([], [])).1 ≠ [] ∧ pyCount content (rest.getD j ([], [])).1 = 1 := by
        intro j hj
        have := hbefore (j + 1) (by omega)
        simpa using this
      have hstep : validateLoop content a ((search, repl) :: rest) i0
          = validateLoop content a rest (i0 + 1) := by
        rw [validateLoop]
        simp [hpne, hponce]
      constructor
      · intro h0
        have harith : i0 + (i + 1) + 1 = (i0 + 1) + i + 1 := by omega
        rw [hstep, harith]
        exact (ih (i0 + 1) i hi' hbefore' hne).1 h0
      · intro n hn hcount
        have harith : i0 + (i + 1) + 1 = (i0 + 1) + i + 1 := by omega
        rw [hstep, harith]
        exact (ih (i0 + 1) i hi' hbefore' hne).2 n hn hcount

/-- **C3, counterexample.** The claim says a failure always cites *the*
zero-occurrence pair's index with a zero-occurrence reason.  On the code:
(1) against content "aa" with pairs [("a","x"), ("b","y")], pair 2 ("b")
occurs zero times, but validation stops at pair 1 ("a" occurs twice) and
returns the multiple-occurrences error for index 1 — not the zero-occurrence
error for index 2; (2) at attempt number 6 (past the cap), a zero-occurrence
pair gets the `STOP_TRYING` message, which cites neither index nor reason. -/
theorem validation_failure_index_counterexample :
    (pyCount ['a', 'a'] ['b'] = 0 ∧
      (apply_patch "f" (some ['a', 'a']) [['a'], ['b']] [['x'], ['y']] 1).error
        = some (multipleMessage 1 2) ∧
      (apply_patch "f" (some ['a', 'a']) [['a'], ['b']] [['x'], ['y']] 1).error
        ≠ some (notFoundMessage 2)) ∧
    (pyCount ['a'] ['b'] = 0 ∧
      apply_patch "f" (some ['a']) [['b']] [['x']] 6 = max_attempts_return) :=
  ⟨⟨by decide, by decide, by decide⟩, by decide, by decide⟩

/-- **C3, amended.** Validation cites the *first* failing pair, provided the
attempt number is at most the cap: if the pairs before index `i` pass and
pair `i` is the first violation, a zero occurrence count yields the failure
`ERROR: Patch i+1: Search text not found ...` and a count `N > 1` yields
`ERROR: Patch i+1: Search text appears N times ...` — in both cases naming
index `i+1` and, for the latter, the exact count `N` — and the file content
is not mutated (the call returns it unchanged).  Above the cap the
`STOP_TRYING` message replaces the detailed error. -/
theorem validation_cites_first_failing_pair (filePath : String) (content : List Char)
    (st rt : List (List Char)) (a i : Nat)
    (ha : a ≤ MAX_ATTEMPTS) (hlen : st.length = rt.length) (hi : i < st.length)
    (hbefore : ∀ j, j < i → st.getD j [] ≠ [] ∧ pyCount content (st.getD j []) = 1)
    (hne : st.getD i [] ≠ []) :
    (pyCount content (st.getD i []) = 0 →
      apply_patch_run filePath (some content) st rt a
        = (failResult (notFoundMessage (i + 1)), some content)) ∧
    (∀ n, 1 < n → pyCount content (st.getD i []) = n →
      apply_patch_run filePath (some content) st rt a
        = (failResult (multipleMessage (i + 1) n), some content)) := by
  have hzip : ∀ j, j < st.length → ((st.zip rt).getD j ([], [])).1 = st.getD j [] :=
    fun j hj => zip_getD_fst st rt j hlen hj
  have hlz : i < (st.zip rt).length := by rw [List.length_zip]; omega
  have hmain := validateLoop_first_fail content a ha (st.zip rt) 0 i hlz
    (fun j hj => by rw [hzip j (by omega)]; exact hbefore j hj)
    (by rw [hzip i hi]; exact hne)
  have happly : apply_patch filePath (some content) st rt a
      = validateLoop content a (st.zip rt) 0 := by
    rw [apply_patch.eq_def]
    simp [hlen]
  constructor
  · intro h0
    have hres := hmain.1 (by rw [hzip i hi]; exact h0)
    simp only [Nat.zero_add] at hres
    rw [apply_patch_run, happly, hres]
  · intro n hn hcount
    have hres := hmain.2 n hn (by rw [hzip i hi]; exact hcount)
    simp only [Nat.zero_add] at hres
    rw [apply_patch_run, happly, hres]

/-- Check of `validation_cites_first_failing_pair`: a single pair whose
search text "z" does not occur in "a". -/
theorem validation_cites_first_failing_pair_witness :
    apply_patch_run "f" (some ['a']) [['z']] [['y']] 1
      = (failResult (notFoundMessage 1), some ['a']) :=
  (validation_cites_first_failing_pair "f" ['a'] [['z']] [['y']] 1 0 (by decide) (by decide)
    (by decide) (fun j hj => absurd hj (by omega)) (by decide)).1 (by decide)

/-- **C6, counterexample.** The claim says any length mismatch among the
three parallel lists aborts before any file is processed.  On the code, only
the file list and the instruction list are compared (ai_updater.py, line
315): with one file, one instruction and *two* creation flags — lengths 1,
1, 2, not all equal — no error is raised and the file is processed
normally. -/
theorem parallel_lists_counterexample :
    (["a"] : List String).length ≠ ([true, false] : List Bool).length ∧
    apply_changes ["a"] ["d"] [true, false] = ([("a", FileAction.create)], none) :=
  ⟨by decide, by decide⟩

/-- **C6, amended.** Only the file list and the instruction list are checked
for equal length: when those two differ, the run aborts with a fatal
`ValueError` before any file is generated or patched, and no change for any
file is processed.  The creation-flag list length is never checked up front
(a longer one is silently ignored; a shorter one only raises an `IndexError`
when first accessed, after earlier files have already been processed). -/
theorem files_instructions_mismatch_aborts (files_to_update implementation_details : List String)
    (requires_creation : List Bool)
    (h : files_to_update.length ≠ implementation_details.length) :
    apply_changes files_to_update implementation_details requires_creation
      = ([], some lengthMismatchErrorMessage) := by
  rw [apply_changes, if_pos h]

/-- Check of `files_instructions_mismatch_aborts` on one file and no
instructions. -/
theorem files_instructions_mismatch_aborts_witness :
    apply_changes ["a"] [] [] = ([], some lengthMismatchErrorMessage) :=
  files_instructions_mismatch_aborts ["a"] [] [] (by decide)

theorem processFiles_getD (files details : List String) (creations : List Bool) :
    ∀ i, i < files.length → i < details.length → i < creations.length →
      (processFiles files details creations).1.getD i ("", FileAction.patch)
        = (files.getD i "",
           if creations.getD i false then FileAction.create else FileAction.patch) := by
  induction files generalizing details creations with
  | nil => intro i hf; simp at hf
  | cons f fs ih =>
    intro i hf hd hc
    cases details with
    | nil => simp at hd
    | cons d ds =>
      cases creations with
      | nil => simp at hc
      | cons c cs =>
        cases i with
        | zero => simp [processFiles]
        | succ i =>
          simp only [processFiles, List.getD_cons_succ]
          exact ih ds cs i (by simpa using hf) (by simpa using hd) (by simpa using hc)

theorem infix_extend_right (l m r : List Char) (h : l <:+: m) : l <:+: m ++ r := by
  obtain ⟨x, y, hxy⟩ := h
  exact ⟨x, y ++ r, by rw [← hxy]; simp⟩

theorem infix_append_self_right (p s : List Char) : s <:+: p ++ s :=
  ⟨p, [], by simp⟩

theorem existing_infix_prompt (impl existing : String) :
    existing.data <:+: (GENERATECOMPLETEFILE_P impl existing).data := by
  rw [GENERATECOMPLETEFILE_P]
  simp only [String.data_append]
  exact infix_extend_right _ _ _ (infix_append_self_right _ _)

theorem marker_infix_doesNotExistMessage (file_path : String) :
    doesNotExistMarker.data <:+: (doesNotExistMessage file_path).data := by
  rw [doesNotExistMessage]
  simp only [String.data_append]
  exact infix_append_self_right _ _

/-- **C7.** For every ChangeInstruction whose `requires_creation` flag is
true, the applier routes that file directly to whole-file generation and
never to the patch loop, and the generation prompt contains the explicit
marker "This file does not exist. Please generate the entire file content
from scratch." instead of any existing content — the creation-mode prompt is
the same whatever content might exist. -/
theorem requires_creation_routes_to_generation
    (files_to_update implementation_details : List String)
    (requires_creation : List Bool) (i : Nat)
    (hlen : files_to_update.length = implementation_details.length)
    (hi : i < files_to_update.length) (hic : i < requires_creation.length)
    (hflag : requires_creation.getD i false = true) :
    (apply_changes files_to_update implementation_details requires_creation).1.getD i
        ("", FileAction.patch)
      = (files_to_update.getD i "", FileAction.create) ∧
    FileAction.create ≠ FileAction.patch ∧
    (∀ detail e₁ e₂ : String,
      generate_file_prompt (files_to_update.getD i "") detail e₁ false
        = generate_file_prompt (files_to_update.getD i "") detail e₂ false) ∧
    (∀ detail existing : String,
      doesNotExistMarker.data <:+:
        (generate_file_prompt (files_to_update.getD i "") detail existing false).data) := by
  refine ⟨?_, by decide, ?_, ?_⟩
  · have hcond : ¬ files_to_update.length ≠ implementation_details.length := by
      simp [hlen]
    have h0 : ¬ files_to_update.length = 0 := by omega
    rw [apply_changes, if_neg hcond, if_neg h0,
      processFiles_getD files_to_update implementation_details requires_creation i hi
        (by omega) hic, hflag]
    simp
  · intro detail e₁ e₂
    rfl
  · intro detail existing
    rw [generate_file_prompt]
    simp only [Bool.false_eq_true, if_false]
    exact List.IsInfix.trans (marker_infix_doesNotExistMessage _) (existing_infix_prompt _ _)

/-- Check of `requires_creation_routes_to_generation` on a single file with
`requires_creation = [true]`. -/
theorem requires_creation_routes_to_generation_witness :
    (apply_changes ["f"] ["d"] [true]).1.getD 0 ("", FileAction.patch)
      = ("f", FileAction.create) :=
  (requires_creation_routes_to_generation ["f"] ["d"] [true] 0 (by decide) (by decide)
    (by decide) (by decide)).1

/-- **C8.** For an empty diff text, the pipeline terminates immediately with
zero generated output files, no invocation of the context-selection, the
analysis or the apply stage, and no side effects (no debug diff file is
written) — whatever the rest of the pipeline would have done on a non-empty
diff. -/
theorem empty_diff_short_circuits (rest : List Char → PipelineTrace) :
    run [] rest = emptyRunTrace ∧
    (run [] rest).ranContextSelection = false ∧
    (run [] rest).ranDiffAnalysis = false ∧
    (run [] rest).ranApplyChanges = false ∧
    (run [] rest).wroteDebugDiffFile = false ∧
    (run [] rest).generatedOutputs = 0 :=
  ⟨rfl, rfl, rfl, rfl, rfl, rfl⟩

end AIUpdater
